import Mathlib

/-!
# Verification of the optimistic task-mutation reconciliation logic

Shallow embedding of `src/frontend/src/components/TaskList.tsx` (the current
revision of the component, the one with optimistic updates, `tasksRef`, the
`hasFetchedRef` fetch-once map and the add/delete race handling).

Modelling conventions:
* `created_at` strings are modelled by their `new Date(x).getTime()` value, a `Nat`,
  since the code only ever compares those numbers (in the sort comparator).
* `fetch` network effects are reified as a list of issued `Request` values; the
  asynchronous handlers are split at their `await` points into a start phase and a
  success/failure continuation phase.
* React `setTasks(prev => f prev)` functional updates compose on the canonical
  state in order.  `tasksRef.current` is synchronised with the state by a
  `useEffect` that runs when the component re-renders, i.e. after the current
  synchronous continuation finishes; hence a continuation sees the `ref` value
  fixed at its entry while its own `setTasks` calls act on the canonical state.
  Functions that read `tasksRef.current` therefore take the ref list explicitly.
-/

namespace TaskApp

/-- The `status` field of a task:
`"pending-add" | "pending-update" | "pending-delete"`. -/
inductive PendingStatus where
  | pendingAdd
  | pendingUpdate
  | pendingDelete
deriving DecidableEq, Repr

/-- The `Task` interface of `TaskList.tsx`:
`{ id, text, completed, user_id, created_at, status?, original? }`.
`original` recursively stores a full prior copy of the task
(set while a `pending-update` is in flight). -/
inductive Task where
  | mk (id : String) (text : String) (completed : Bool) (user_id : String)
       (created_at : Nat) (status : Option PendingStatus) (original : Option Task)

def Task.id : Task → String
  | .mk i _ _ _ _ _ _ => i

def Task.text : Task → String
  | .mk _ t _ _ _ _ _ => t

def Task.completed : Task → Bool
  | .mk _ _ c _ _ _ _ => c

def Task.user_id : Task → String
  | .mk _ _ _ u _ _ _ => u

def Task.created_at : Task → Nat
  | .mk _ _ _ _ n _ _ => n

def Task.status : Task → Option PendingStatus
  | .mk _ _ _ _ _ s _ => s

def Task.original : Task → Option Task
  | .mk _ _ _ _ _ _ o => o

/-- The JS spread `{ ...t, status: s }`: every field of `t` kept, `status` replaced. -/
def Task.setStatus : Task → Option PendingStatus → Task
  | .mk i t c u n _ o, s => .mk i t c u n s o

/-- The JS spread `{ ...t, status: undefined, original: undefined }`. -/
def Task.clearPending : Task → Task
  | .mk i t c u n _ _ => .mk i t c u n none none

@[simp] theorem Task.setStatus_id (t : Task) (s : Option PendingStatus) :
    (t.setStatus s).id = t.id := by cases t; rfl

@[simp] theorem Task.setStatus_text (t : Task) (s : Option PendingStatus) :
    (t.setStatus s).text = t.text := by cases t; rfl

@[simp] theorem Task.setStatus_completed (t : Task) (s : Option PendingStatus) :
    (t.setStatus s).completed = t.completed := by cases t; rfl

@[simp] theorem Task.setStatus_created_at (t : Task) (s : Option PendingStatus) :
    (t.setStatus s).created_at = t.created_at := by cases t; rfl

@[simp] theorem Task.setStatus_status (t : Task) (s : Option PendingStatus) :
    (t.setStatus s).status = s := by cases t; rfl

@[simp] theorem Task.setStatus_original (t : Task) (s : Option PendingStatus) :
    (t.setStatus s).original = t.original := by cases t; rfl

@[simp] theorem Task.clearPending_id (t : Task) : t.clearPending.id = t.id := by
  cases t; rfl

@[simp] theorem Task.clearPending_status (t : Task) : t.clearPending.status = none := by
  cases t; rfl

@[simp] theorem Task.clearPending_original (t : Task) : t.clearPending.original = none := by
  cases t; rfl

@[simp] theorem Task.clearPending_created_at (t : Task) :
    t.clearPending.created_at = t.created_at := by cases t; rfl

/-- Structural well-formedness of the `original` chain: a rollback snapshot always
records the same task (same `id`, same `created_at`) as the task holding it. -/
def Task.wf : Task → Bool
  | .mk _ _ _ _ _ _ none => true
  | .mk i _ _ _ n _ (some o) => o.id == i && o.created_at == n && o.wf

instance : DecidableRel (fun a b : Task => a.created_at ≤ b.created_at) :=
  fun a b => Nat.decLe a.created_at b.created_at

instance : IsTotal Task (fun a b : Task => a.created_at ≤ b.created_at) :=
  ⟨fun a b => Nat.le_total a.created_at b.created_at⟩

instance : IsTrans Task (fun a b : Task => a.created_at ≤ b.created_at) :=
  ⟨fun _ _ _ => Nat.le_trans⟩

/-- The sort applied throughout the component:
`.sort((a, b) => new Date(a.created_at).getTime() - new Date(b.created_at).getTime())`,
a stable ascending sort on the `created_at` timestamp (JS `Array.prototype.sort`
with a consistent comparator is stable; a stable structural sort models it). -/
def sortByCreatedAt (l : List Task) : List Task :=
  List.insertionSort (fun a b : Task => a.created_at ≤ b.created_at) l

/-- The collection is ordered by ascending `created_at`. -/
def SortedByCreated (l : List Task) : Prop :=
  l.Pairwise (fun a b => a.created_at ≤ b.created_at)

theorem sortedByCreated_sortByCreatedAt (l : List Task) :
    SortedByCreated (sortByCreatedAt l) :=
  List.sorted_insertionSort _ l

theorem perm_sortByCreatedAt (l : List Task) : List.Perm (sortByCreatedAt l) l :=
  List.perm_insertionSort _ l

@[simp] theorem mem_sortByCreatedAt {t : Task} {l : List Task} :
    t ∈ sortByCreatedAt l ↔ t ∈ l :=
  (perm_sortByCreatedAt l).mem_iff

@[simp] theorem Task.id_mk (i te : String) (c : Bool) (u : String) (n : Nat)
    (st : Option PendingStatus) (o : Option Task) :
    (Task.mk i te c u n st o).id = i := rfl

@[simp] theorem Task.text_mk (i te : String) (c : Bool) (u : String) (n : Nat)
    (st : Option PendingStatus) (o : Option Task) :
    (Task.mk i te c u n st o).text = te := rfl

@[simp] theorem Task.completed_mk (i te : String) (c : Bool) (u : String) (n : Nat)
    (st : Option PendingStatus) (o : Option Task) :
    (Task.mk i te c u n st o).completed = c := rfl

@[simp] theorem Task.user_id_mk (i te : String) (c : Bool) (u : String) (n : Nat)
    (st : Option PendingStatus) (o : Option Task) :
    (Task.mk i te c u n st o).user_id = u := rfl

@[simp] theorem Task.created_at_mk (i te : String) (c : Bool) (u : String) (n : Nat)
    (st : Option PendingStatus) (o : Option Task) :
    (Task.mk i te c u n st o).created_at = n := rfl

@[simp] theorem Task.status_mk (i te : String) (c : Bool) (u : String) (n : Nat)
    (st : Option PendingStatus) (o : Option Task) :
    (Task.mk i te c u n st o).status = st := rfl

@[simp] theorem Task.original_mk (i te : String) (c : Bool) (u : String) (n : Nat)
    (st : Option PendingStatus) (o : Option Task) :
    (Task.mk i te c u n st o).original = o := rfl

@[simp] theorem Task.wf_setStatus (t : Task) (s : Option PendingStatus) :
    (t.setStatus s).wf = t.wf := by
  cases t with
  | mk i te c u n st o => cases o <;> rfl

@[simp] theorem Task.wf_clearPending (t : Task) : t.clearPending.wf = true := by
  cases t; rfl

theorem Task.wf_of_original_none {t : Task} (h : t.original = none) : t.wf = true := by
  cases t with
  | mk i te c u n st o =>
    cases o with
    | none => rfl
    | some o' => simp at h

theorem Task.wf_original {t o : Task} (hw : t.wf = true) (ho : t.original = some o) :
    o.id = t.id ∧ o.created_at = t.created_at ∧ o.wf = true := by
  cases t with
  | mk i te c u n st oo =>
    cases oo with
    | none => simp at ho
    | some o' =>
      simp at ho
      subst ho
      simp only [Task.wf, Bool.and_eq_true, beq_iff_eq] at hw
      exact ⟨hw.1.1, hw.1.2, hw.2⟩

/-- The placeholder-id test `id.startsWith("temp-")`: a prefix test on the
underlying characters (stated over `String.data` so that it computes in the kernel). -/
def isTempId (id : String) : Bool := "temp-".data.isPrefixOf id.data

/-- A network request issued through `fetch`, against the Task Resource API.
`listTasks`  : `GET    {API_BASE_URL}/tasks/`
`createTask` : `POST   {API_BASE_URL}/tasks/` with body `{text}`
`putTask`    : `PUT    {API_BASE_URL}/tasks/{id}` with the given body fields
`removeTask` : `DELETE {API_BASE_URL}/tasks/{id}`
All carry the `Authorization: Bearer <token>` header. -/
inductive Request where
  | listTasks (token : String)
  | createTask (token : String) (text : String)
  | putTask (token : String) (id : String) (text : Option String) (completed : Option Bool)
  | removeTask (token : String) (id : String)
deriving DecidableEq, Repr

/-- The state owned by the `TaskList` component:
`tasks` (the `useState` list), `hasFetched` (the `hasFetchedRef.current`
record from user id to boolean) and the `fetchingTasks` flag. -/
structure ManagerState where
  tasks : List Task
  hasFetched : List (String × Bool)
  fetchingTasks : Bool

/-- Reading `hasFetchedRef.current[userId]` (an absent key is falsy). -/
def lookupFlag (m : List (String × Bool)) (k : String) : Bool :=
  match m.find? (fun p => p.1 == k) with
  | some p => p.2
  | none => false

/-- Writing `hasFetchedRef.current[userId] = v`. -/
def setFlag (m : List (String × Bool)) (k : String) (v : Bool) : List (String × Bool) :=
  (k, v) :: m.filter (fun p => p.1 != k)

/-- `fetchTasks` up to its `await fetch`: the guard clauses and, when the list
must actually be fetched, the `GET /tasks/` request.  `user` is `user?.id`. -/
def fetchTasksStart (user token : Option String) (s : ManagerState) :
    ManagerState × List Request :=
  match user, token with
  | some userId, some tok =>
    if lookupFlag s.hasFetched userId then
      ({ s with fetchingTasks := false }, [])
    else
      ({ s with fetchingTasks := true }, [Request.listTasks tok])
  | _, _ => ({ tasks := [], hasFetched := [], fetchingTasks := false }, [])

/-- `fetchTasks` continuation on a 2xx response carrying `data`. -/
def fetchTasksSuccess (userId : String) (data : List Task) (s : ManagerState) :
    ManagerState :=
  { s with tasks := sortByCreatedAt data,
           hasFetched := setFlag s.hasFetched userId true,
           fetchingTasks := false }

/-- `fetchTasks` continuation on a non-ok response or a thrown error. -/
def fetchTasksFailure (userId : String) (s : ManagerState) : ManagerState :=
  { s with tasks := [],
           hasFetched := setFlag s.hasFetched userId false,
           fetchingTasks := false }

/-- The closure data captured by `handleDeleteTask` across its `await`:
the requested `id`, the `skipOptimisticRemove` flag and the `taskToDelete`
value found before the request was issued. -/
structure DeleteCont where
  id : String
  skip : Bool
  taskToDelete : Task

/-- `handleDeleteTask(id, skipOptimisticRemove)` up to its `await fetch`.
`ref` is `tasksRef.current` as seen by this invocation (the state at the last
committed render; when the call is nested inside another continuation this is
that continuation's entry state).  Returns the new state, the issued requests,
and the pending continuation when a `DELETE` was actually issued. -/
def handleDeleteTaskStart (user token : Option String) (id : String) (skip : Bool)
    (ref : List Task) (s : ManagerState) :
    ManagerState × List Request × Option DeleteCont :=
  match user, token with
  | some _, some tok =>
    match ref.find? (fun t => t.id == id) with
    | none => (s, [], none)
    | some taskToDelete =>
      if isTempId id && taskToDelete.status == some PendingStatus.pendingAdd then
        ({ s with tasks := s.tasks.map (fun t =>
            if t.id == id then t.setStatus (some PendingStatus.pendingDelete) else t) },
         [], none)
      else
        let s1 := if skip then s
                  else { s with tasks := s.tasks.filter (fun t => t.id != id) }
        (s1, [Request.removeTask tok id], some ⟨id, skip, taskToDelete⟩)
  | _, _ => (s, [], none)

/-- `handleDeleteTask` continuation on a 2xx response. -/
def handleDeleteTaskSuccess (c : DeleteCont) (s : ManagerState) : ManagerState :=
  if c.skip then { s with tasks := s.tasks.filter (fun t => t.id != c.id) } else s

/-- `handleDeleteTask` continuation on a failed request: re-insert the removed
task (status cleared) and re-sort, unless the optimistic removal was skipped. -/
def handleDeleteTaskFailure (c : DeleteCont) (s : ManagerState) : ManagerState :=
  if c.skip then s
  else { s with tasks := sortByCreatedAt (s.tasks ++ [c.taskToDelete.setStatus none]) }

/-- `handleAddTask(text)` up to its `await fetch`: the auth guard, the optimistic
insert of the placeholder task (sorted in), and the `POST /tasks/` request.
`tempId` stands for the generated `temp-{crypto.randomUUID()}` string and
`now` for `new Date().toISOString()` (as a timestamp). -/
def handleAddTaskStart (user token : Option String) (text : String)
    (tempId : String) (now : Nat) (s : ManagerState) : ManagerState × List Request :=
  match user, token with
  | some u, some tok =>
    let optimisticTask : Task := .mk tempId text false u now (some PendingStatus.pendingAdd) none
    ({ s with tasks := sortByCreatedAt (s.tasks ++ [optimisticTask]) },
     [Request.createTask tok text])
  | _, _ => (s, [])

/-- The `wasPendingDelete` check of `handleAddTask`'s success continuation:
`tasksRef.current.find(task => task.id === tempId)?.status === "pending-delete"`. -/
def pendingDeleteRequested (ref : List Task) (tempId : String) : Bool :=
  match ref.find? (fun t => t.id == tempId) with
  | some t => t.status == some PendingStatus.pendingDelete
  | none => false

/-- `handleAddTask` continuation on a 201 response carrying `newTask`.
`tasksRef.current` is read at entry (it equals the canonical task list, the
renders between the request and the response having synchronised it); when the
placeholder was marked `pending-delete` in the meantime, the placeholder is
filtered out and `handleDeleteTask(newTask.id, true)` runs synchronously —
against that same, now stale, ref. -/
def handleAddTaskSuccess (user token : Option String) (tempId : String)
    (newTask : Task) (s : ManagerState) : ManagerState × List Request :=
  let ref := s.tasks
  if pendingDeleteRequested ref tempId then
    let s1 := { s with tasks := s.tasks.filter (fun t => t.id != tempId) }
    let r := handleDeleteTaskStart user token newTask.id true ref s1
    (r.1, r.2.1)
  else
    ({ s with tasks := sortByCreatedAt (s.tasks.map (fun t =>
        if t.id == tempId then newTask.setStatus none else t)) }, [])

/-- `handleAddTask` catch branch: remove the optimistically added placeholder. -/
def handleAddTaskFailure (tempId : String) (s : ManagerState) : ManagerState :=
  { s with tasks := s.tasks.filter (fun t => t.id != tempId) }

/-- The optimistic update applied by `handleUpdateTask`:
`{ ...task, ...updatedFields, status: "pending-update", original: originalTask }`
where `updatedFields` is `{text: newText}` plus `{completed}` when provided. -/
def applyUpdateFields (newText : String) (completed? : Option Bool)
    (originalTask t : Task) : Task :=
  .mk t.id newText (completed?.getD t.completed) t.user_id t.created_at
    (some PendingStatus.pendingUpdate) (some originalTask)

/-- `handleUpdateTask(id, newText, completed?)` up to its `await fetch`.
The returned `Bool` records whether a `PUT` was issued (placeholder ids
return before the network call). -/
def handleUpdateTaskStart (user token : Option String) (id newText : String)
    (completed? : Option Bool) (s : ManagerState) :
    ManagerState × List Request × Bool :=
  match user, token with
  | some _, some tok =>
    match s.tasks.find? (fun t => t.id == id) with
    | none => (s, [], false)
    | some originalTask =>
      let s1 := { s with tasks := sortByCreatedAt (s.tasks.map (fun t =>
        if t.id == id then applyUpdateFields newText completed? originalTask t else t)) }
      if isTempId id then (s1, [], false)
      else (s1, [Request.putTask tok id (some newText) completed?], true)
  | _, _ => (s, [], false)

/-- `handleUpdateTask` continuation on a 2xx response carrying the server task:
`{ ...backendUpdatedTask, status: undefined, original: undefined }`, re-sorted. -/
def handleUpdateTaskSuccess (id : String) (backendTask : Task) (s : ManagerState) :
    ManagerState :=
  { s with tasks := sortByCreatedAt (s.tasks.map (fun t =>
      if t.id == id then backendTask.clearPending else t)) }

/-- `handleUpdateTask` catch branch: restore `{ ...task.original, status: undefined }`
for the matching task when its `original` snapshot is present, re-sorted. -/
def handleUpdateTaskFailure (id : String) (s : ManagerState) : ManagerState :=
  { s with tasks := sortByCreatedAt (s.tasks.map (fun t =>
      if t.id == id then
        match t.original with
        | some o => o.setStatus none
        | none => t
      else t)) }

/-- The optimistic update applied by `handleToggleComplete`:
`{ ...task, completed, status: "pending-update", original: originalTask }`. -/
def applyToggleField (completed : Bool) (originalTask t : Task) : Task :=
  .mk t.id t.text completed t.user_id t.created_at
    (some PendingStatus.pendingUpdate) (some originalTask)

/-- `handleToggleComplete(id, completed)` up to its `await fetch`.
Unlike `handleUpdateTask`, the optimistic map is not followed by a sort. -/
def handleToggleCompleteStart (user token : Option String) (id : String)
    (completed : Bool) (s : ManagerState) : ManagerState × List Request × Bool :=
  match user, token with
  | some _, some tok =>
    match s.tasks.find? (fun t => t.id == id) with
    | none => (s, [], false)
    | some originalTask =>
      let s1 := { s with tasks := s.tasks.map (fun t =>
        if t.id == id then applyToggleField completed originalTask t else t) }
      if isTempId id then (s1, [], false)
      else (s1, [Request.putTask tok id none (some completed)], true)
  | _, _ => (s, [], false)

/-- `handleToggleComplete` continuation on a 2xx response (same reconciliation
as `handleUpdateTask`). -/
def handleToggleCompleteSuccess (id : String) (backendTask : Task) (s : ManagerState) :
    ManagerState :=
  { s with tasks := sortByCreatedAt (s.tasks.map (fun t =>
      if t.id == id then backendTask.clearPending else t)) }

/-- `handleToggleComplete` catch branch: restore the `original` snapshot
(status cleared); no re-sort in this handler. -/
def handleToggleCompleteFailure (id : String) (s : ManagerState) : ManagerState :=
  { s with tasks := s.tasks.map (fun t =>
      if t.id == id then
        match t.original with
        | some o => o.setStatus none
        | none => t
      else t) }

/-- The ids of the tasks of a collection. -/
def ids (l : List Task) : List String := l.map Task.id

/-- The data-model invariant of the local collection (spec §3): ordered by ascending
`created_at`, exactly one task per id, and rollback snapshots consistent. -/
def InvL (l : List Task) : Prop :=
  SortedByCreated l ∧ (ids l).Nodup ∧ ∀ t ∈ l, t.wf = true

@[simp] theorem ids_append (l₁ l₂ : List Task) : ids (l₁ ++ l₂) = ids l₁ ++ ids l₂ :=
  List.map_append _ _ _

@[simp] theorem ids_cons (a : Task) (l : List Task) : ids (a :: l) = a.id :: ids l := rfl

@[simp] theorem ids_nil : ids [] = [] := rfl

theorem mem_ids_of_mem {t : Task} {l : List Task} (h : t ∈ l) : t.id ∈ ids l :=
  List.mem_map_of_mem _ h

theorem mem_ids {i : String} {l : List Task} : i ∈ ids l ↔ ∃ t ∈ l, t.id = i := by
  simp [ids, List.mem_map]

theorem invL_sortByCreatedAt {l : List Task}
    (hnd : (ids l).Nodup) (hwf : ∀ t ∈ l, t.wf = true) :
    InvL (sortByCreatedAt l) := by
  refine ⟨sortedByCreated_sortByCreatedAt l, ?_, ?_⟩
  · exact (((perm_sortByCreatedAt l).map Task.id).nodup_iff).mpr hnd
  · intro t ht
    exact hwf t (mem_sortByCreatedAt.mp ht)

theorem invL_filter (p : Task → Bool) {l : List Task} (h : InvL l) :
    InvL (l.filter p) := by
  obtain ⟨hs, hnd, hwf⟩ := h
  refine ⟨hs.sublist (List.filter_sublist l), ?_, ?_⟩
  · exact hnd.sublist ((List.filter_sublist l).map Task.id)
  · intro t ht
    exact hwf t (List.mem_of_mem_filter ht)

theorem invL_nil : InvL [] := ⟨List.Pairwise.nil, List.nodup_nil, by simp⟩

theorem invL_map_preserve {l : List Task} (f : Task → Task)
    (hid : ∀ t ∈ l, t.wf = true → (f t).id = t.id)
    (hkey : ∀ t ∈ l, t.wf = true → (f t).created_at = t.created_at)
    (hwf : ∀ t ∈ l, t.wf = true → (f t).wf = true)
    (h : InvL l) : InvL (l.map f) := by
  obtain ⟨hs, hnd, hw⟩ := h
  refine ⟨?_, ?_, ?_⟩
  · rw [SortedByCreated, List.pairwise_map]
    exact hs.imp_of_mem (fun ha hb hab => by
      rw [hkey _ ha (hw _ ha), hkey _ hb (hw _ hb)]; exact hab)
  · have : ids (l.map f) = ids l := by
      simp only [ids, List.map_map]
      exact List.map_congr_left (fun t ht => hid t ht (hw t ht))
    rw [this]; exact hnd
  · intro t ht
    obtain ⟨x, hx, rfl⟩ := List.mem_map.mp ht
    exact hwf x hx (hw x hx)

/-- A map that keeps every (well-formed) task's id, followed by the component's
re-sort, preserves the collection invariant. -/
theorem invL_sort_map {l : List Task} (f : Task → Task)
    (hid : ∀ t ∈ l, t.wf = true → (f t).id = t.id)
    (hwf : ∀ t ∈ l, t.wf = true → (f t).wf = true)
    (h : InvL l) : InvL (sortByCreatedAt (l.map f)) := by
  obtain ⟨_, hnd, hw⟩ := h
  refine invL_sortByCreatedAt ?_ ?_
  · have : ids (l.map f) = ids l := by
      simp only [ids, List.map_map]
      exact List.map_congr_left (fun t ht => hid t ht (hw t ht))
    rw [this]; exact hnd
  · intro t ht
    obtain ⟨x, hx, rfl⟩ := List.mem_map.mp ht
    exact hwf x hx (hw x hx)

/-- With unique ids, the task `find?` locates for an id is the only task
bearing that id. -/
theorem find_unique {l : List Task} {i : String} {t₀ t : Task}
    (hnd : (ids l).Nodup)
    (hfind : l.find? (fun t => t.id == i) = some t₀)
    (ht : t ∈ l) (hid : t.id = i) : t = t₀ := by
  induction l with
  | nil => simp at hfind
  | cons a as ih =>
    simp only [ids, List.map_cons, List.nodup_cons] at hnd
    rw [List.find?_cons] at hfind
    cases hcond : (a.id == i) with
    | true =>
      rw [hcond] at hfind
      simp only [Option.some.injEq] at hfind
      subst hfind
      cases ht with
      | head => rfl
      | tail _ hmem =>
        exfalso
        have : t.id ∈ ids as := mem_ids_of_mem hmem
        rw [hid, ← (beq_iff_eq).mp hcond] at this
        exact hnd.1 this
    | false =>
      rw [hcond] at hfind
      cases ht with
      | head =>
        exfalso
        rw [hid] at hcond
        simp at hcond
      | tail _ hmem => exact ih hnd.2 hfind hmem

theorem nodup_ids_map_replace {l : List Task} {x : String} (r : Task)
    (hnd : (ids l).Nodup) (hr : r.id ∉ ids l) :
    (ids (l.map (fun t => if t.id == x then r else t))).Nodup := by
  induction l with
  | nil => simp
  | cons a as ih =>
    simp only [ids_cons, List.nodup_cons, List.mem_cons] at hnd hr
    push_neg at hr
    obtain ⟨hnd1, hnd2⟩ := hnd
    obtain ⟨hr1, hr2⟩ := hr
    simp only [List.map_cons, ids_cons, List.nodup_cons]
    refine ⟨?_, ih hnd2 hr2⟩
    intro hmem
    rw [mem_ids] at hmem
    obtain ⟨y, hy, hyid⟩ := hmem
    obtain ⟨b, hb, rfl⟩ := List.mem_map.mp hy
    by_cases hax : (a.id == x) = true
    · rw [if_pos hax] at hyid
      by_cases hbx : (b.id == x) = true
      · have hba : b.id = a.id := (beq_iff_eq.mp hbx).trans (beq_iff_eq.mp hax).symm
        exact hnd1 (hba ▸ mem_ids_of_mem hb)
      · rw [if_neg hbx] at hyid
        exact hr2 (hyid ▸ mem_ids_of_mem hb)
    · rw [if_neg hax] at hyid
      by_cases hbx : (b.id == x) = true
      · rw [if_pos hbx] at hyid
        exact hr1 hyid
      · rw [if_neg hbx] at hyid
        exact hnd1 (hyid ▸ mem_ids_of_mem hb)

theorem nodup_ids_append_singleton {l : List Task} {t' : Task}
    (hnd : (ids l).Nodup) (hfresh : t'.id ∉ ids l) :
    (ids (l ++ [t'])).Nodup := by
  rw [ids_append]
  refine List.Nodup.append hnd (List.nodup_singleton _) ?_
  intro a ha hb
  simp only [ids_cons, ids_nil, List.mem_singleton] at hb
  subst hb
  exact hfresh ha

/-- When the looked-up id is nowhere in the ref list, `handleDeleteTask` is a
complete no-op: state unchanged, no request, no pending continuation. -/
theorem handleDeleteTaskStart_notFound (user token : Option String) (id : String)
    (skip : Bool) {ref : List Task} (s : ManagerState)
    (h : ref.find? (fun t => t.id == id) = none) :
    handleDeleteTaskStart user token id skip ref s = (s, [], none) := by
  cases user <;> cases token <;> simp [handleDeleteTaskStart, h]

theorem invL_fetchTasksStart (user token : Option String) (s : ManagerState)
    (h : InvL s.tasks) : InvL (fetchTasksStart user token s).1.tasks := by
  cases user with
  | none => exact invL_nil
  | some u =>
    cases token with
    | none => exact invL_nil
    | some tok =>
      cases hf : lookupFlag s.hasFetched u <;>
        simpa [fetchTasksStart, hf] using h

theorem invL_fetchTasksSuccess (userId : String) (data : List Task) (s : ManagerState)
    (hids : (ids data).Nodup) (hserver : ∀ t ∈ data, t.original = none) :
    InvL (fetchTasksSuccess userId data s).tasks :=
  invL_sortByCreatedAt hids (fun t ht => Task.wf_of_original_none (hserver t ht))

theorem invL_fetchTasksFailure (userId : String) (s : ManagerState) :
    InvL (fetchTasksFailure userId s).tasks := invL_nil

theorem invL_handleAddTaskStart (user token : Option String) (text tempId : String)
    (now : Nat) (s : ManagerState) (hfresh : tempId ∉ ids s.tasks)
    (h : InvL s.tasks) :
    InvL (handleAddTaskStart user token text tempId now s).1.tasks := by
  cases user with
  | none => exact h
  | some u =>
    cases token with
    | none => exact h
    | some tok =>
      dsimp [handleAddTaskStart]
      refine invL_sortByCreatedAt (nodup_ids_append_singleton h.2.1 ?_) ?_
      · simpa using hfresh
      · intro t ht
        rcases List.mem_append.mp ht with hl | hr
        · exact h.2.2 t hl
        · rw [List.mem_singleton.mp hr]; rfl

theorem invL_handleAddTaskFailure (tempId : String) (s : ManagerState)
    (h : InvL s.tasks) : InvL (handleAddTaskFailure tempId s).tasks :=
  invL_filter _ h

theorem invL_handleAddTaskSuccess (user token : Option String) (tempId : String)
    (newTask : Task) (s : ManagerState)
    (hfresh : newTask.id ∉ ids s.tasks) (hserver : newTask.original = none)
    (h : InvL s.tasks) :
    InvL (handleAddTaskSuccess user token tempId newTask s).1.tasks := by
  cases hwpd : pendingDeleteRequested s.tasks tempId with
  | true =>
    have hnone : s.tasks.find? (fun t => t.id == newTask.id) = none := by
      rw [List.find?_eq_none]
      intro x hx hbeq
      exact hfresh ((beq_iff_eq.mp hbeq) ▸ mem_ids_of_mem hx)
    simp only [handleAddTaskSuccess, hwpd, if_true,
      handleDeleteTaskStart_notFound user token newTask.id true _ hnone]
    exact invL_filter _ h
  | false =>
    simp only [handleAddTaskSuccess, hwpd, Bool.false_eq_true, if_false]
    refine invL_sortByCreatedAt (nodup_ids_map_replace _ h.2.1 ?_) ?_
    · simpa using hfresh
    · intro t ht
      obtain ⟨x, hx, rfl⟩ := List.mem_map.mp ht
      by_cases hxx : (x.id == tempId) = true
      · rw [if_pos hxx, Task.wf_setStatus]
        exact Task.wf_of_original_none hserver
      · rw [if_neg hxx]
        exact h.2.2 x hx

theorem invL_handleUpdateTaskStart (user token : Option String) (id newText : String)
    (completed? : Option Bool) (s : ManagerState) (h : InvL s.tasks) :
    InvL (handleUpdateTaskStart user token id newText completed? s).1.tasks := by
  cases user with
  | none => exact h
  | some u =>
    cases token with
    | none => exact h
    | some tok =>
      cases hfind : s.tasks.find? (fun t => t.id == id) with
      | none => simpa [handleUpdateTaskStart, hfind] using h
      | some t₀ =>
        have hmain : InvL (sortByCreatedAt (s.tasks.map (fun t =>
            if t.id == id then applyUpdateFields newText completed? t₀ t else t))) := by
          refine invL_sort_map _ ?_ ?_ h
          · intro t ht hw
            by_cases hx : (t.id == id) = true
            · rw [if_pos hx]; rfl
            · rw [if_neg hx]
          · intro t ht hw
            by_cases hx : (t.id == id) = true
            · rw [if_pos hx]
              have ht₀ : t = t₀ := find_unique h.2.1 hfind ht (beq_iff_eq.mp hx)
              subst ht₀
              simp [applyUpdateFields, Task.wf, hw]
            · rw [if_neg hx]; exact hw
        cases htemp : isTempId id <;>
          simpa [handleUpdateTaskStart, hfind, htemp] using hmain

theorem invL_handleUpdateTaskSuccess (id : String) (backendTask : Task)
    (s : ManagerState) (hid : backendTask.id = id) (h : InvL s.tasks) :
    InvL (handleUpdateTaskSuccess id backendTask s).tasks := by
  refine invL_sort_map _ ?_ ?_ h
  · intro t ht hw
    by_cases hx : (t.id == id) = true
    · rw [if_pos hx, Task.clearPending_id, hid, beq_iff_eq.mp hx]
    · rw [if_neg hx]
  · intro t ht hw
    by_cases hx : (t.id == id) = true
    · rw [if_pos hx]; exact Task.wf_clearPending _
    · rw [if_neg hx]; exact hw

theorem invL_handleUpdateTaskFailure (id : String) (s : ManagerState)
    (h : InvL s.tasks) : InvL (handleUpdateTaskFailure id s).tasks := by
  refine invL_sort_map _ ?_ ?_ h
  · intro t ht hw
    by_cases hx : (t.id == id) = true
    · rw [if_pos hx]
      cases ho : t.original with
      | none => rfl
      | some o => rw [Task.setStatus_id]; exact (Task.wf_original hw ho).1
    · rw [if_neg hx]
  · intro t ht hw
    by_cases hx : (t.id == id) = true
    · rw [if_pos hx]
      cases ho : t.original with
      | none => exact hw
      | some o => rw [Task.wf_setStatus]; exact (Task.wf_original hw ho).2.2
    · rw [if_neg hx]; exact hw

theorem invL_handleToggleCompleteStart (user token : Option String) (id : String)
    (completed : Bool) (s : ManagerState) (h : InvL s.tasks) :
    InvL (handleToggleCompleteStart user token id completed s).1.tasks := by
  cases user with
  | none => exact h
  | some u =>
    cases token with
    | none => exact h
    | some tok =>
      cases hfind : s.tasks.find? (fun t => t.id == id) with
      | none => simpa [handleToggleCompleteStart, hfind] using h
      | some t₀ =>
        have hmain : InvL (s.tasks.map (fun t =>
            if t.id == id then applyToggleField completed t₀ t else t)) := by
          refine invL_map_preserve _ ?_ ?_ ?_ h
          · intro t ht hw
            by_cases hx : (t.id == id) = true
            · rw [if_pos hx]; rfl
            · rw [if_neg hx]
          · intro t ht hw
            by_cases hx : (t.id == id) = true
            · rw [if_pos hx]; rfl
            · rw [if_neg hx]
          · intro t ht hw
            by_cases hx : (t.id == id) = true
            · rw [if_pos hx]
              have ht₀ : t = t₀ := find_unique h.2.1 hfind ht (beq_iff_eq.mp hx)
              subst ht₀
              simp [applyToggleField, Task.wf, hw]
            · rw [if_neg hx]; exact hw
        cases htemp : isTempId id <;>
          simpa [handleToggleCompleteStart, hfind, htemp] using hmain

theorem invL_handleToggleCompleteSuccess (id : String) (backendTask : Task)
    (s : ManagerState) (hid : backendTask.id = id) (h : InvL s.tasks) :
    InvL (handleToggleCompleteSuccess id backendTask s).tasks :=
  invL_handleUpdateTaskSuccess id backendTask s hid h

theorem invL_handleToggleCompleteFailure (id : String) (s : ManagerState)
    (h : InvL s.tasks) : InvL (handleToggleCompleteFailure id s).tasks := by
  refine invL_map_preserve _ ?_ ?_ ?_ h
  · intro t ht hw
    by_cases hx : (t.id == id) = true
    · rw [if_pos hx]
      cases ho : t.original with
      | none => rfl
      | some o => rw [Task.setStatus_id]; exact (Task.wf_original hw ho).1
    · rw [if_neg hx]
  · intro t ht hw
    by_cases hx : (t.id == id) = true
    · rw [if_pos hx]
      cases ho : t.original with
      | none => rfl
      | some o => rw [Task.setStatus_created_at]; exact (Task.wf_original hw ho).2.1
    · rw [if_neg hx]
  · intro t ht hw
    by_cases hx : (t.id == id) = true
    · rw [if_pos hx]
      cases ho : t.original with
      | none => exact hw
      | some o => rw [Task.wf_setStatus]; exact (Task.wf_original hw ho).2.2
    · rw [if_neg hx]; exact hw

theorem invL_handleDeleteTaskStart (user token : Option String) (id : String)
    (skip : Bool) (ref : List Task) (s : ManagerState) (h : InvL s.tasks) :
    InvL (handleDeleteTaskStart user token id skip ref s).1.tasks := by
  cases user with
  | none => exact h
  | some u =>
    cases token with
    | none => exact h
    | some tok =>
      cases hfind : ref.find? (fun t => t.id == id) with
      | none => simpa [handleDeleteTaskStart, hfind] using h
      | some t₀ =>
        cases hb : (isTempId id && t₀.status == some PendingStatus.pendingAdd) with
        | true =>
          have hmain : InvL (s.tasks.map (fun t =>
              if t.id == id then t.setStatus (some PendingStatus.pendingDelete) else t)) := by
            refine invL_map_preserve _ ?_ ?_ ?_ h
            · intro t ht hw
              by_cases hx : (t.id == id) = true
              · rw [if_pos hx, Task.setStatus_id]
              · rw [if_neg hx]
            · intro t ht hw
              by_cases hx : (t.id == id) = true
              · rw [if_pos hx, Task.setStatus_created_at]
              · rw [if_neg hx]
            · intro t ht hw
              by_cases hx : (t.id == id) = true
              · rw [if_pos hx, Task.wf_setStatus]; exact hw
              · rw [if_neg hx]; exact hw
          simpa [handleDeleteTaskStart, hfind, hb] using hmain
        | false =>
          cases skip with
          | true => simpa [handleDeleteTaskStart, hfind, hb] using h
          | false =>
            simpa [handleDeleteTaskStart, hfind, hb] using
              invL_filter (fun t => t.id != id) h

theorem invL_handleDeleteTaskSuccess (c : DeleteCont) (s : ManagerState)
    (h : InvL s.tasks) : InvL (handleDeleteTaskSuccess c s).tasks := by
  cases hc : c.skip <;> simp [handleDeleteTaskSuccess, hc]
  · exact h
  · exact invL_filter _ h

theorem invL_handleDeleteTaskFailure (c : DeleteCont) (s : ManagerState)
    (hwf : c.taskToDelete.wf = true) (hfresh : c.taskToDelete.id ∉ ids s.tasks)
    (h : InvL s.tasks) : InvL (handleDeleteTaskFailure c s).tasks := by
  cases hc : c.skip with
  | true => simpa [handleDeleteTaskFailure, hc] using h
  | false =>
    simp only [handleDeleteTaskFailure, hc, Bool.false_eq_true, if_false]
    refine invL_sortByCreatedAt (nodup_ids_append_singleton h.2.1 ?_) ?_
    · rw [Task.setStatus_id]; exact hfresh
    · intro t ht
      rcases List.mem_append.mp ht with hl | hr
      · exact h.2.2 t hl
      · rw [List.mem_singleton.mp hr, Task.wf_setStatus]; exact hwf

/-- The initial component state: `useState<Task[]>([])`,
`useRef<Record<string, boolean>>({})`, `useState(true)` for `fetchingTasks`. -/
def initState : ManagerState := { tasks := [], hasFetched := [], fetchingTasks := true }

/-- One completed Manager operation phase: each constructor applies one of the
handler phases of `TaskList.tsx` to the state.  The side conditions record
facts about the environment that hold in every real run: `crypto.randomUUID`
placeholder ids and server-assigned ids are fresh, tasks parsed from server
JSON carry no `original` property, the server echoes the updated task under the
requested id, and a `DELETE` continuation's captured task was found in (and,
when not skipped, removed from) the collection. -/
inductive Step : ManagerState → ManagerState → Prop where
  | loadStart (user token : Option String) (s : ManagerState) :
      Step s (fetchTasksStart user token s).1
  | loadSuccess (userId : String) (data : List Task) (s : ManagerState)
      (hserver : ∀ t ∈ data, t.original = none)
      (hids : (ids data).Nodup) :
      Step s (fetchTasksSuccess userId data s)
  | loadFailure (userId : String) (s : ManagerState) :
      Step s (fetchTasksFailure userId s)
  | addStart (user token : Option String) (text tempId : String) (now : Nat)
      (s : ManagerState) (hfresh : tempId ∉ ids s.tasks) :
      Step s (handleAddTaskStart user token text tempId now s).1
  | addSuccess (user token : Option String) (tempId : String) (newTask : Task)
      (s : ManagerState) (hfresh : newTask.id ∉ ids s.tasks)
      (hserver : newTask.original = none) :
      Step s (handleAddTaskSuccess user token tempId newTask s).1
  | addFailure (tempId : String) (s : ManagerState) :
      Step s (handleAddTaskFailure tempId s)
  | updateStart (user token : Option String) (id newText : String)
      (completed? : Option Bool) (s : ManagerState) :
      Step s (handleUpdateTaskStart user token id newText completed? s).1
  | updateSuccess (id : String) (backendTask : Task) (s : ManagerState)
      (hid : backendTask.id = id) :
      Step s (handleUpdateTaskSuccess id backendTask s)
  | updateFailure (id : String) (s : ManagerState) :
      Step s (handleUpdateTaskFailure id s)
  | toggleStart (user token : Option String) (id : String) (completed : Bool)
      (s : ManagerState) :
      Step s (handleToggleCompleteStart user token id completed s).1
  | toggleSuccess (id : String) (backendTask : Task) (s : ManagerState)
      (hid : backendTask.id = id) :
      Step s (handleToggleCompleteSuccess id backendTask s)
  | toggleFailure (id : String) (s : ManagerState) :
      Step s (handleToggleCompleteFailure id s)
  | deleteStart (user token : Option String) (id : String) (s : ManagerState) :
      Step s (handleDeleteTaskStart user token id false s.tasks s).1
  | deleteSuccess (c : DeleteCont) (s : ManagerState) :
      Step s (handleDeleteTaskSuccess c s)
  | deleteFailure (c : DeleteCont) (s : ManagerState)
      (hwf : c.taskToDelete.wf = true)
      (hfresh : c.taskToDelete.id ∉ ids s.tasks) :
      Step s (handleDeleteTaskFailure c s)

theorem invL_step {s s' : ManagerState} (h : Step s s') (hI : InvL s.tasks) :
    InvL s'.tasks := by
  cases h with
  | loadStart user token s => exact invL_fetchTasksStart user token s hI
  | loadSuccess userId data s hserver hids =>
      exact invL_fetchTasksSuccess userId data s hids hserver
  | loadFailure userId s => exact invL_fetchTasksFailure userId s
  | addStart user token text tempId now s hfresh =>
      exact invL_handleAddTaskStart user token text tempId now s hfresh hI
  | addSuccess user token tempId newTask s hfresh hserver =>
      exact invL_handleAddTaskSuccess user token tempId newTask s hfresh hserver hI
  | addFailure tempId s => exact invL_handleAddTaskFailure tempId s hI
  | updateStart user token id newText completed? s =>
      exact invL_handleUpdateTaskStart user token id newText completed? s hI
  | updateSuccess id backendTask s hid =>
      exact invL_handleUpdateTaskSuccess id backendTask s hid hI
  | updateFailure id s => exact invL_handleUpdateTaskFailure id s hI
  | toggleStart user token id completed s =>
      exact invL_handleToggleCompleteStart user token id completed s hI
  | toggleSuccess id backendTask s hid =>
      exact invL_handleToggleCompleteSuccess id backendTask s hid hI
  | toggleFailure id s => exact invL_handleToggleCompleteFailure id s hI
  | deleteStart user token id s =>
      exact invL_handleDeleteTaskStart user token id false s.tasks s hI
  | deleteSuccess c s => exact invL_handleDeleteTaskSuccess c s hI
  | deleteFailure c s hwf hfresh =>
      exact invL_handleDeleteTaskFailure c s hwf hfresh hI

/-- C3: after every Manager operation completes (loadTasks start/success/failure,
addTask optimistic insert, create-success replacement (both branches of the
add/delete race) and create-failure rollback, updateTask/toggleComplete
start/success/failure, deleteTask start/success/failure re-insert), the local
task collection is sorted by ascending `created_at`; this holds for any
sequence of such operations from the component's initial state. -/
theorem C3_sorted_after_any_sequence (s' : ManagerState)
    (h : Relation.ReflTransGen Step initState s') : SortedByCreated s'.tasks := by
  have hInv : InvL s'.tasks := by
    induction h with
    | refl => exact invL_nil
    | tail h₁ h₂ ih => exact invL_step h₂ ih
  exact hInv.1

theorem C3_sorted_after_any_sequence_witness :
    SortedByCreated (fetchTasksSuccess "u1"
      [Task.mk "2" "B" false "u1" 200 none none,
       Task.mk "1" "A" false "u1" 100 none none] initState).tasks :=
  C3_sorted_after_any_sequence _
    (Relation.ReflTransGen.single
      (Step.loadSuccess "u1" _ initState (by simp) (by simp [ids])))

theorem lookupFlag_setFlag_self (m : List (String × Bool)) (k : String) (v : Bool) :
    lookupFlag (setFlag m k v) k = v := by
  simp [lookupFlag, setFlag, List.find?_cons]

/-- C4: with a user id not yet marked as fetched, calling `fetchTasks` twice with
the same user id and two different bearer tokens, the first call completing
successfully, issues exactly one `GET /tasks/` request (in the first call); the
second call issues none and leaves the task collection unchanged. -/
theorem C4_fetch_once_per_user (s : ManagerState) (userId tok1 tok2 : String)
    (data : List Task) (_hne : tok1 ≠ tok2)
    (hnew : lookupFlag s.hasFetched userId = false) :
    (fetchTasksStart (some userId) (some tok1) s).2 = [Request.listTasks tok1] ∧
    (fetchTasksStart (some userId) (some tok2)
        (fetchTasksSuccess userId data (fetchTasksStart (some userId) (some tok1) s).1)).2
      = [] ∧
    (fetchTasksStart (some userId) (some tok2)
        (fetchTasksSuccess userId data (fetchTasksStart (some userId) (some tok1) s).1)).1.tasks
      = (fetchTasksSuccess userId data (fetchTasksStart (some userId) (some tok1) s).1).tasks := by
  refine ⟨?_, ?_, ?_⟩
  · simp [fetchTasksStart, hnew]
  · simp [fetchTasksStart, fetchTasksSuccess, hnew, lookupFlag_setFlag_self]
  · simp [fetchTasksStart, fetchTasksSuccess, hnew, lookupFlag_setFlag_self]

theorem C4_fetch_once_per_user_witness :
    (fetchTasksStart (some "u1") (some "tokA") initState).2
      = [Request.listTasks "tokA"] ∧
    (fetchTasksStart (some "u1") (some "tokB")
        (fetchTasksSuccess "u1" [] (fetchTasksStart (some "u1") (some "tokA") initState).1)).2
      = [] ∧
    (fetchTasksStart (some "u1") (some "tokB")
        (fetchTasksSuccess "u1" [] (fetchTasksStart (some "u1") (some "tokA") initState).1)).1.tasks
      = (fetchTasksSuccess "u1" [] (fetchTasksStart (some "u1") (some "tokA") initState).1).tasks :=
  C4_fetch_once_per_user initState "u1" "tokA" "tokB" [] (by decide) rfl

/-- C5: with no authenticated user or no access token, every mutation operation
(add, update, toggle, delete) leaves the state untouched and issues no network
request. -/
theorem C5_unauthenticated_mutations_noop (user token : Option String)
    (s : ManagerState) (h : user = none ∨ token = none)
    (text tempId id newText : String) (now : Nat) (completed? : Option Bool)
    (completed : Bool) :
    handleAddTaskStart user token text tempId now s = (s, []) ∧
    handleUpdateTaskStart user token id newText completed? s = (s, [], false) ∧
    handleToggleCompleteStart user token id completed s = (s, [], false) ∧
    handleDeleteTaskStart user token id false s.tasks s = (s, [], none) := by
  rcases h with h | h
  · subst h
    exact ⟨rfl, rfl, rfl, rfl⟩
  · subst h
    cases user <;> exact ⟨rfl, rfl, rfl, rfl⟩

theorem C5_unauthenticated_mutations_noop_witness :
    handleAddTaskStart none none "A" "temp-1" 5 initState = (initState, []) ∧
    handleUpdateTaskStart none none "1" "B" none initState = (initState, [], false) ∧
    handleToggleCompleteStart none none "1" true initState = (initState, [], false) ∧
    handleDeleteTaskStart none none "1" false initState.tasks initState
      = (initState, [], none) :=
  C5_unauthenticated_mutations_noop none none initState (Or.inl rfl) "A" "temp-1" "1" "B" 5
    none true

/-- C7: deleting a task whose id is a local placeholder still pending creation
(`temp-` id, `pending-add` status) does not remove it from the collection: every
task is kept (the matching one with its status set to `pending-delete`), and no
`DELETE` request or delete continuation is produced. -/
theorem C7_delete_pending_placeholder_deferred (u tok id : String) (s : ManagerState)
    (t₀ : Task) (hfind : s.tasks.find? (fun t => t.id == id) = some t₀)
    (htemp : isTempId id = true)
    (hpend : t₀.status = some PendingStatus.pendingAdd) :
    handleDeleteTaskStart (some u) (some tok) id false s.tasks s =
      ({ s with tasks := s.tasks.map (fun t =>
          if t.id == id then t.setStatus (some PendingStatus.pendingDelete) else t) },
       [], none) ∧
    (handleDeleteTaskStart (some u) (some tok) id false s.tasks s).1.tasks.length
      = s.tasks.length ∧
    t₀.setStatus (some PendingStatus.pendingDelete)
      ∈ (handleDeleteTaskStart (some u) (some tok) id false s.tasks s).1.tasks := by
  have hcond : (isTempId id && t₀.status == some PendingStatus.pendingAdd) = true := by
    rw [htemp, hpend]; rfl
  have hmain : handleDeleteTaskStart (some u) (some tok) id false s.tasks s =
      ({ s with tasks := s.tasks.map (fun t =>
          if t.id == id then t.setStatus (some PendingStatus.pendingDelete) else t) },
       [], none) := by
    simp [handleDeleteTaskStart, hfind, hcond]
  refine ⟨hmain, ?_, ?_⟩
  · rw [hmain]; exact List.length_map _ _
  · rw [hmain]
    exact List.mem_map.mpr ⟨t₀, List.mem_of_find?_eq_some hfind,
      by rw [if_pos (List.find?_some hfind)]⟩

theorem C7_delete_pending_placeholder_deferred_witness :
    handleDeleteTaskStart (some "u") (some "tok") "temp-1" false
        (ManagerState.mk [Task.mk "temp-1" "X" false "u" 100 (some PendingStatus.pendingAdd) none]
          [] false).tasks
        (ManagerState.mk [Task.mk "temp-1" "X" false "u" 100 (some PendingStatus.pendingAdd) none]
          [] false) =
      ({ ManagerState.mk
          [Task.mk "temp-1" "X" false "u" 100 (some PendingStatus.pendingAdd) none] [] false with
         tasks := (ManagerState.mk
            [Task.mk "temp-1" "X" false "u" 100 (some PendingStatus.pendingAdd) none]
            [] false).tasks.map (fun t =>
          if t.id == "temp-1" then t.setStatus (some PendingStatus.pendingDelete) else t) },
       [], none) ∧
    (handleDeleteTaskStart (some "u") (some "tok") "temp-1" false
        (ManagerState.mk [Task.mk "temp-1" "X" false "u" 100 (some PendingStatus.pendingAdd) none]
          [] false).tasks
        (ManagerState.mk [Task.mk "temp-1" "X" false "u" 100 (some PendingStatus.pendingAdd) none]
          [] false)).1.tasks.length =
      (ManagerState.mk [Task.mk "temp-1" "X" false "u" 100 (some PendingStatus.pendingAdd) none]
        [] false).tasks.length ∧
    (Task.mk "temp-1" "X" false "u" 100
        (some PendingStatus.pendingAdd) none).setStatus (some PendingStatus.pendingDelete)
      ∈ (handleDeleteTaskStart (some "u") (some "tok") "temp-1" false
        (ManagerState.mk [Task.mk "temp-1" "X" false "u" 100 (some PendingStatus.pendingAdd) none]
          [] false).tasks
        (ManagerState.mk [Task.mk "temp-1" "X" false "u" 100 (some PendingStatus.pendingAdd) none]
          [] false)).1.tasks :=
  C7_delete_pending_placeholder_deferred "u" "tok" "temp-1"
    (ManagerState.mk [Task.mk "temp-1" "X" false "u" 100 (some PendingStatus.pendingAdd) none]
      [] false)
    (Task.mk "temp-1" "X" false "u" 100 (some PendingStatus.pendingAdd) none) rfl rfl rfl

/-- C8: editing (updateTask) or toggling (toggleComplete) a task whose id is a
local placeholder applies the new fields to the local task only — the optimistic
map runs, the matching task now carries the new fields — and no remote request
is issued. -/
theorem C8_placeholder_edit_local_only (u tok id newText : String)
    (completed? : Option Bool) (completed : Bool) (s : ManagerState) (t₀ : Task)
    (hfind : s.tasks.find? (fun t => t.id == id) = some t₀)
    (htemp : isTempId id = true) :
    (handleUpdateTaskStart (some u) (some tok) id newText completed? s).2 = ([], false) ∧
    (handleUpdateTaskStart (some u) (some tok) id newText completed? s).1.tasks
      = sortByCreatedAt (s.tasks.map (fun t =>
          if t.id == id then applyUpdateFields newText completed? t₀ t else t)) ∧
    applyUpdateFields newText completed? t₀ t₀
      ∈ (handleUpdateTaskStart (some u) (some tok) id newText completed? s).1.tasks ∧
    (handleToggleCompleteStart (some u) (some tok) id completed s).2 = ([], false) ∧
    (handleToggleCompleteStart (some u) (some tok) id completed s).1.tasks
      = s.tasks.map (fun t => if t.id == id then applyToggleField completed t₀ t else t) ∧
    applyToggleField completed t₀ t₀
      ∈ (handleToggleCompleteStart (some u) (some tok) id completed s).1.tasks := by
  have hU : handleUpdateTaskStart (some u) (some tok) id newText completed? s
      = ({ s with tasks := sortByCreatedAt (s.tasks.map (fun t =>
          if t.id == id then applyUpdateFields newText completed? t₀ t else t)) },
        [], false) := by
    simp [handleUpdateTaskStart, hfind, htemp]
  have hT : handleToggleCompleteStart (some u) (some tok) id completed s
      = ({ s with tasks := s.tasks.map (fun t =>
          if t.id == id then applyToggleField completed t₀ t else t) },
        [], false) := by
    simp [handleToggleCompleteStart, hfind, htemp]
  have ht₀mem : t₀ ∈ s.tasks := List.mem_of_find?_eq_some hfind
  have ht₀id : (t₀.id == id) = true := by
    have hx := List.find?_some hfind
    exact hx
  refine ⟨by rw [hU], by rw [hU], ?_, by rw [hT], by rw [hT], ?_⟩
  · rw [hU]
    exact mem_sortByCreatedAt.mpr
      (List.mem_map.mpr ⟨t₀, ht₀mem, by rw [if_pos ht₀id]⟩)
  · rw [hT]
    exact List.mem_map.mpr ⟨t₀, ht₀mem, by rw [if_pos ht₀id]⟩

theorem C8_placeholder_edit_local_only_witness :
    (handleUpdateTaskStart (some "u") (some "tok") "temp-1" "B" none
        (ManagerState.mk [Task.mk "temp-1" "A" false "u" 100 (some PendingStatus.pendingAdd) none]
          [] false)).2 = ([], false) ∧
    (handleUpdateTaskStart (some "u") (some "tok") "temp-1" "B" none
        (ManagerState.mk [Task.mk "temp-1" "A" false "u" 100 (some PendingStatus.pendingAdd) none]
          [] false)).1.tasks
      = sortByCreatedAt ((ManagerState.mk
          [Task.mk "temp-1" "A" false "u" 100 (some PendingStatus.pendingAdd) none]
          [] false).tasks.map (fun t =>
          if t.id == "temp-1" then applyUpdateFields "B" none
            (Task.mk "temp-1" "A" false "u" 100 (some PendingStatus.pendingAdd) none) t else t)) ∧
    applyUpdateFields "B" none
        (Task.mk "temp-1" "A" false "u" 100 (some PendingStatus.pendingAdd) none)
        (Task.mk "temp-1" "A" false "u" 100 (some PendingStatus.pendingAdd) none)
      ∈ (handleUpdateTaskStart (some "u") (some "tok") "temp-1" "B" none
        (ManagerState.mk [Task.mk "temp-1" "A" false "u" 100 (some PendingStatus.pendingAdd) none]
          [] false)).1.tasks ∧
    (handleToggleCompleteStart (some "u") (some "tok") "temp-1" true
        (ManagerState.mk [Task.mk "temp-1" "A" false "u" 100 (some PendingStatus.pendingAdd) none]
          [] false)).2 = ([], false) ∧
    (handleToggleCompleteStart (some "u") (some "tok") "temp-1" true
        (ManagerState.mk [Task.mk "temp-1" "A" false "u" 100 (some PendingStatus.pendingAdd) none]
          [] false)).1.tasks
      = (ManagerState.mk
          [Task.mk "temp-1" "A" false "u" 100 (some PendingStatus.pendingAdd) none]
          [] false).tasks.map (fun t =>
          if t.id == "temp-1" then applyToggleField true
            (Task.mk "temp-1" "A" false "u" 100 (some PendingStatus.pendingAdd) none) t else t) ∧
    applyToggleField true
        (Task.mk "temp-1" "A" false "u" 100 (some PendingStatus.pendingAdd) none)
        (Task.mk "temp-1" "A" false "u" 100 (some PendingStatus.pendingAdd) none)
      ∈ (handleToggleCompleteStart (some "u") (some "tok") "temp-1" true
        (ManagerState.mk [Task.mk "temp-1" "A" false "u" 100 (some PendingStatus.pendingAdd) none]
          [] false)).1.tasks :=
  C8_placeholder_edit_local_only "u" "tok" "temp-1" "B" none true
    (ManagerState.mk [Task.mk "temp-1" "A" false "u" 100 (some PendingStatus.pendingAdd) none]
      [] false)
    (Task.mk "temp-1" "A" false "u" 100 (some PendingStatus.pendingAdd) none) rfl rfl

/-- After the optimistic update (which stamps `original := some t₀` on the matching
task) the catch-branch restore map turns every task bearing the requested id into
`t₀` with its status cleared. -/
theorem restore_map_fields {l : List Task} {id : String} {t₀ : Task} (upd : Task → Task)
    (hupd_id : ∀ x, (upd x).id = x.id)
    (hupd_orig : ∀ x, (upd x).original = some t₀) :
    ∀ t ∈ (l.map (fun t => if t.id == id then upd t else t)).map
        (fun t => if t.id == id then
            (match t.original with
             | some o => o.setStatus none
             | none => t)
          else t),
      t.id = id → t = t₀.setStatus none := by
  intro t ht htid
  obtain ⟨y, hy, hyt⟩ := List.mem_map.mp ht
  obtain ⟨x, hx, hxy⟩ := List.mem_map.mp hy
  by_cases hxx : (x.id == id) = true
  · rw [if_pos hxx] at hxy
    subst hxy
    rw [if_pos (by rw [hupd_id x]; exact hxx), hupd_orig x] at hyt
    exact hyt.symm
  · rw [if_neg hxx] at hxy
    subst hxy
    rw [if_neg hxx] at hyt
    subst hyt
    exact absurd (beq_iff_eq.mpr htid) hxx

/-- C2: when a remote `PUT` issued by updateTask or toggleComplete fails, the
failure handler restores the matching task's visible fields (`text`, `completed`,
`created_at`) to the values it had immediately before the optimistic update, and
its pending status is cleared; the restored task is present in the collection. -/
theorem C2_failed_update_rollback (u tok id newText : String) (completed? : Option Bool)
    (completed : Bool) (s : ManagerState) (t₀ : Task)
    (hfind : s.tasks.find? (fun t => t.id == id) = some t₀)
    (htemp : isTempId id = false) :
    (t₀.setStatus none ∈ (handleUpdateTaskFailure id
        (handleUpdateTaskStart (some u) (some tok) id newText completed? s).1).tasks ∧
      ∀ t ∈ (handleUpdateTaskFailure id
          (handleUpdateTaskStart (some u) (some tok) id newText completed? s).1).tasks,
        t.id = id → t.text = t₀.text ∧ t.completed = t₀.completed ∧
          t.created_at = t₀.created_at ∧ t.status = none) ∧
    (t₀.setStatus none ∈ (handleToggleCompleteFailure id
        (handleToggleCompleteStart (some u) (some tok) id completed s).1).tasks ∧
      ∀ t ∈ (handleToggleCompleteFailure id
          (handleToggleCompleteStart (some u) (some tok) id completed s).1).tasks,
        t.id = id → t.text = t₀.text ∧ t.completed = t₀.completed ∧
          t.created_at = t₀.created_at ∧ t.status = none) := by
  have ht₀mem : t₀ ∈ s.tasks := List.mem_of_find?_eq_some hfind
  have ht₀id : (t₀.id == id) = true := by
    have hx := List.find?_some hfind
    exact hx
  have hU : (handleUpdateTaskStart (some u) (some tok) id newText completed? s).1
      = { s with tasks := sortByCreatedAt (s.tasks.map (fun t =>
          if t.id == id then applyUpdateFields newText completed? t₀ t else t)) } := by
    simp [handleUpdateTaskStart, hfind, htemp]
  have hT : (handleToggleCompleteStart (some u) (some tok) id completed s).1
      = { s with tasks := s.tasks.map (fun t =>
          if t.id == id then applyToggleField completed t₀ t else t) } := by
    simp [handleToggleCompleteStart, hfind, htemp]
  have hUid : ∀ x, (applyUpdateFields newText completed? t₀ x).id = x.id := by
    intro x; rfl
  have hUorig : ∀ x, (applyUpdateFields newText completed? t₀ x).original = some t₀ := by
    intro x; rfl
  have hTid : ∀ x, (applyToggleField completed t₀ x).id = x.id := by
    intro x; rfl
  have hTorig : ∀ x, (applyToggleField completed t₀ x).original = some t₀ := by
    intro x; rfl
  constructor
  · rw [hU]
    constructor
    · show t₀.setStatus none ∈ sortByCreatedAt (List.map _ (sortByCreatedAt (List.map _ s.tasks)))
      refine mem_sortByCreatedAt.mpr (List.mem_map.mpr
        ⟨applyUpdateFields newText completed? t₀ t₀, ?_, ?_⟩)
      · exact mem_sortByCreatedAt.mpr (List.mem_map.mpr ⟨t₀, ht₀mem, by rw [if_pos ht₀id]⟩)
      · rw [if_pos (by rw [hUid t₀]; exact ht₀id), hUorig t₀]
    · intro t ht htid
      have ht' : t ∈ (List.map (fun t =>
          if t.id == id then applyUpdateFields newText completed? t₀ t else t) s.tasks).map
            (fun t => if t.id == id then
              (match t.original with
               | some o => o.setStatus none
               | none => t) else t) := by
        have h1 := mem_sortByCreatedAt.mp ht
        obtain ⟨y, hy, hyt⟩ := List.mem_map.mp h1
        exact List.mem_map.mpr ⟨y, mem_sortByCreatedAt.mp hy, hyt⟩
      have := restore_map_fields
        (applyUpdateFields newText completed? t₀) hUid hUorig t ht' htid
      subst this
      simp
  · rw [hT]
    constructor
    · refine List.mem_map.mpr ⟨applyToggleField completed t₀ t₀, ?_, ?_⟩
      · exact List.mem_map.mpr ⟨t₀, ht₀mem, by rw [if_pos ht₀id]⟩
      · rw [if_pos (by rw [hTid t₀]; exact ht₀id), hTorig t₀]
    · intro t ht htid
      have := restore_map_fields
        (applyToggleField completed t₀) hTid hTorig t ht htid
      subst this
      simp

instance : IsAntisymm Task (fun a b : Task => a.created_at < b.created_at) :=
  ⟨fun _ _ h1 h2 => absurd h2 (Nat.lt_asymm h1)⟩

theorem nodup_keys_of_strict {l : List Task}
    (h : l.Pairwise (fun a b => a.created_at < b.created_at)) :
    (l.map Task.created_at).Nodup :=
  List.pairwise_map.mpr (h.imp (fun hlt => Nat.ne_of_lt hlt))

theorem pairwise_lt_of_le_nodup {l : List Task}
    (hle : l.Pairwise (fun a b => a.created_at ≤ b.created_at))
    (hnd : (l.map Task.created_at).Nodup) :
    l.Pairwise (fun a b => a.created_at < b.created_at) := by
  have hne : l.Pairwise (fun a b => a.created_at ≠ b.created_at) :=
    List.pairwise_map.mp hnd
  exact (hle.and hne).imp (fun h => Nat.lt_of_le_of_ne h.1 h.2)

theorem pairwise_key_replace {A B : List Task} {t₀ t₁ : Task}
    (hk : t₁.created_at = t₀.created_at)
    (h : (A ++ t₀ :: B).Pairwise (fun a b => a.created_at < b.created_at)) :
    (A ++ t₁ :: B).Pairwise (fun a b => a.created_at < b.created_at) := by
  rw [List.pairwise_append] at h
  obtain ⟨hA, hcons, hcross⟩ := h
  rw [List.pairwise_cons] at hcons
  refine List.pairwise_append.mpr ⟨hA, List.pairwise_cons.mpr ⟨?_, hcons.2⟩, ?_⟩
  · intro b hb
    rw [hk]
    exact hcons.1 b hb
  · intro a ha b hb
    rcases List.mem_cons.mp hb with hb1 | hbB
    · subst hb1
      rw [hk]
      exact hcross a ha t₀ (List.mem_cons_self _ _)
    · exact hcross a ha b (List.mem_cons_of_mem _ hbB)

/-- C6: deleting a task with a server id removes it optimistically and issues the
`DELETE`; when that request fails, the task is re-inserted with the fields it had
when removed and no pending status, and after the re-sort the collection equals
the original collection with just that task's status cleared — the task is back
at its original sort position. -/
theorem C6_delete_failure_reinsert (u tok id : String) (s : ManagerState) (t₀ : Task)
    (hfind : s.tasks.find? (fun t => t.id == id) = some t₀)
    (htemp : isTempId id = false)
    (hsorted : s.tasks.Pairwise (fun a b => a.created_at < b.created_at))
    (huniq : ∀ t ∈ s.tasks, t.id = id → t = t₀) :
    (handleDeleteTaskStart (some u) (some tok) id false s.tasks s).2.1
      = [Request.removeTask tok id] ∧
    (handleDeleteTaskStart (some u) (some tok) id false s.tasks s).2.2
      = some ⟨id, false, t₀⟩ ∧
    (handleDeleteTaskFailure ⟨id, false, t₀⟩
        (handleDeleteTaskStart (some u) (some tok) id false s.tasks s).1).tasks
      = s.tasks.map (fun t => if t.id == id then t.setStatus none else t) := by
  have ht₀id : (t₀.id == id) = true := by
    have hx := List.find?_some hfind
    exact hx
  have hcond : (isTempId id && t₀.status == some PendingStatus.pendingAdd) = false := by
    rw [htemp]
    rfl
  have hstart : handleDeleteTaskStart (some u) (some tok) id false s.tasks s
      = ({ s with tasks := s.tasks.filter (fun t => t.id != id) },
         [Request.removeTask tok id], some ⟨id, false, t₀⟩) := by
    simp [handleDeleteTaskStart, hfind, hcond]
  refine ⟨by rw [hstart], by rw [hstart], ?_⟩
  rw [hstart]
  show sortByCreatedAt (s.tasks.filter (fun t => t.id != id) ++ [t₀.setStatus none]) = _
  obtain ⟨A, B, hAB⟩ := List.append_of_mem (List.mem_of_find?_eq_some hfind)
  have hs' : (A ++ t₀ :: B).Pairwise (fun a b => a.created_at < b.created_at) := by
    rw [← hAB]
    exact hsorted
  have hA : ∀ t ∈ A, t.id ≠ id := by
    intro t htA heq
    have ht : t = t₀ := huniq t (by rw [hAB]; exact List.mem_append_left _ htA) heq
    subst ht
    have hx := (List.pairwise_append.mp hs').2.2 t htA t (List.mem_cons_self _ _)
    exact absurd hx (lt_irrefl _)
  have hB : ∀ t ∈ B, t.id ≠ id := by
    intro t htB heq
    have ht : t = t₀ := huniq t
      (by rw [hAB]; exact List.mem_append_right _ (List.mem_cons_of_mem _ htB)) heq
    subst ht
    have hx := (List.pairwise_cons.mp (List.pairwise_append.mp hs').2.1).1 t htB
    exact absurd hx (lt_irrefl _)
  have hfilter : s.tasks.filter (fun t => t.id != id) = A ++ B := by
    rw [hAB, List.filter_append]
    have h1 : A.filter (fun t => t.id != id) = A :=
      List.filter_eq_self.mpr (fun a ha => by simpa [bne_iff_ne] using hA a ha)
    have h2 : (t₀ :: B).filter (fun t => t.id != id) = B := by
      rw [List.filter_cons_of_neg (by simp [bne, ht₀id])]
      exact List.filter_eq_self.mpr (fun a ha => by simpa [bne_iff_ne] using hB a ha)
    rw [h1, h2]
  have hmap : s.tasks.map (fun t => if t.id == id then t.setStatus none else t)
      = A ++ t₀.setStatus none :: B := by
    rw [hAB, List.map_append, List.map_cons]
    have h1 : A.map (fun t => if t.id == id then t.setStatus none else t)
        = A.map (fun t => t) :=
      List.map_congr_left (fun t ht => by
        rw [if_neg (by simpa using hA t ht)])
    have h2 : B.map (fun t => if t.id == id then t.setStatus none else t)
        = B.map (fun t => t) :=
      List.map_congr_left (fun t ht => by
        rw [if_neg (by simpa using hB t ht)])
    rw [h1, h2, List.map_id', List.map_id', if_pos ht₀id]
  rw [hfilter, hmap]
  have hperm : List.Perm (sortByCreatedAt ((A ++ B) ++ [t₀.setStatus none]))
      (A ++ t₀.setStatus none :: B) := by
    have h1 := (List.perm_append_singleton (t₀.setStatus none) B).append_left A
    have h2 := perm_sortByCreatedAt ((A ++ B) ++ [t₀.setStatus none])
    refine h2.trans ?_
    rw [List.append_assoc]
    exact h1
  have hsR : (A ++ t₀.setStatus none :: B).Pairwise
      (fun a b => a.created_at < b.created_at) :=
    pairwise_key_replace (by simp) hs'
  have hsL : (sortByCreatedAt ((A ++ B) ++ [t₀.setStatus none])).Pairwise
      (fun a b => a.created_at < b.created_at) := by
    refine pairwise_lt_of_le_nodup (sortedByCreated_sortByCreatedAt _) ?_
    exact ((hperm.map Task.created_at).nodup_iff).mpr (nodup_keys_of_strict hsR)
  exact List.eq_of_perm_of_sorted hperm hsL hsR

theorem C6_delete_failure_reinsert_witness :
    (handleDeleteTaskStart (some "u") (some "tok") "1" false
        (ManagerState.mk [Task.mk "1" "A" false "u" 100 none none,
          Task.mk "2" "B" true "u" 200 none none] [] false).tasks
        (ManagerState.mk [Task.mk "1" "A" false "u" 100 none none,
          Task.mk "2" "B" true "u" 200 none none] [] false)).2.1
      = [Request.removeTask "tok" "1"] ∧
    (handleDeleteTaskStart (some "u") (some "tok") "1" false
        (ManagerState.mk [Task.mk "1" "A" false "u" 100 none none,
          Task.mk "2" "B" true "u" 200 none none] [] false).tasks
        (ManagerState.mk [Task.mk "1" "A" false "u" 100 none none,
          Task.mk "2" "B" true "u" 200 none none] [] false)).2.2
      = some ⟨"1", false, Task.mk "1" "A" false "u" 100 none none⟩ ∧
    (handleDeleteTaskFailure ⟨"1", false, Task.mk "1" "A" false "u" 100 none none⟩
        (handleDeleteTaskStart (some "u") (some "tok") "1" false
          (ManagerState.mk [Task.mk "1" "A" false "u" 100 none none,
            Task.mk "2" "B" true "u" 200 none none] [] false).tasks
          (ManagerState.mk [Task.mk "1" "A" false "u" 100 none none,
            Task.mk "2" "B" true "u" 200 none none] [] false)).1).tasks
      = (ManagerState.mk [Task.mk "1" "A" false "u" 100 none none,
          Task.mk "2" "B" true "u" 200 none none] [] false).tasks.map
          (fun t => if t.id == "1" then t.setStatus none else t) :=
  C6_delete_failure_reinsert "u" "tok" "1"
    (ManagerState.mk [Task.mk "1" "A" false "u" 100 none none,
      Task.mk "2" "B" true "u" 200 none none] [] false)
    (Task.mk "1" "A" false "u" 100 none none) rfl rfl
    (by simp [List.pairwise_cons])
    (by
      intro t ht hid
      simp only [List.mem_cons, List.not_mem_nil, or_false] at ht
      rcases ht with rfl | rfl
      · rfl
      · simp at hid)

theorem C2_failed_update_rollback_witness :
    (Task.mk "1" "A" false "u" 100 none none).setStatus none
      ∈ (handleUpdateTaskFailure "1"
          (handleUpdateTaskStart (some "u") (some "tok") "1" "B" none
            (ManagerState.mk [Task.mk "1" "A" false "u" 100 none none] [] false)).1).tasks ∧
    (Task.mk "1" "A" false "u" 100 none none).setStatus none
      ∈ (handleToggleCompleteFailure "1"
          (handleToggleCompleteStart (some "u") (some "tok") "1" true
            (ManagerState.mk [Task.mk "1" "A" false "u" 100 none none] [] false)).1).tasks :=
  ⟨(C2_failed_update_rollback "u" "tok" "1" "B" none true
      (ManagerState.mk [Task.mk "1" "A" false "u" 100 none none] [] false)
      (Task.mk "1" "A" false "u" 100 none none) rfl rfl).1.1,
   (C2_failed_update_rollback "u" "tok" "1" "B" none true
      (ManagerState.mk [Task.mk "1" "A" false "u" 100 none none] [] false)
      (Task.mk "1" "A" false "u" 100 none none) rfl rfl).2.1⟩

/-- C1 (evaluation at the failing input): `addTask("X")` inserts placeholder
`temp-1` and issues the `POST`; `deleteTask("temp-1")` before the create response
defers the delete (status `pending-delete`, no request, no continuation); the
create then resolves successfully with server task `42`.  The placeholder is
removed — the final collection is empty, as required — but the nested
`handleDeleteTask("42", true)` finds no task with id `42` in `tasksRef.current`
and returns before its `fetch`, so the success continuation issues no request at
all: the `DELETE` against the server-assigned id that the spec requires is never
sent. -/
theorem C1_add_delete_race_no_delete_request :
    (let s0 : ManagerState := ManagerState.mk [] [] false
     let r1 := handleAddTaskStart (some "u") (some "tok") "X" "temp-1" 100 s0
     let r2 := handleDeleteTaskStart (some "u") (some "tok") "temp-1" false r1.1.tasks r1.1
     let r3 := handleAddTaskSuccess (some "u") (some "tok") "temp-1"
        (Task.mk "42" "X" false "u" 100 none none) r2.1
     r1.2 = [Request.createTask "tok" "X"] ∧
     r2.2.1 = [] ∧
     r2.2.2 = none ∧
     pendingDeleteRequested r2.1.tasks "temp-1" = true ∧
     r3.1.tasks = [] ∧
     r3.2 = []) :=
  ⟨rfl, rfl, rfl, rfl, rfl, rfl⟩

/-- C9 counterexample: a placeholder edited while its create is in flight does not
keep the locally edited text once the create resolves.  Placeholder `temp-1` is
edited from "A" to "B" while the `POST` is in flight; the create resolves with
server task `{id: "42", text: "A"}`; the final collection holds text "A" — the
stale server fields — not the locally edited "B". -/
theorem C9_counterexample_local_edit_lost :
    (let s0 : ManagerState := ManagerState.mk
        [Task.mk "temp-1" "A" false "u" 100 (some PendingStatus.pendingAdd) none] [] false
     let s1 := (handleUpdateTaskStart (some "u") (some "tok") "temp-1" "B" none s0).1
     let r := handleAddTaskSuccess (some "u") (some "tok") "temp-1"
        (Task.mk "42" "A" false "u" 150 none none) s1
     s1.tasks.map Task.text = ["B"] ∧
     r.1.tasks.map Task.text = ["A"] ∧
     r.1.tasks.map Task.text ≠ ["B"]) :=
  ⟨rfl, rfl, by decide⟩

/-- C9 amended: the create-success handler overwrites the placeholder with the
server-returned representation.  Whenever the placeholder is not marked
`pending-delete` at response time — in particular after a local edit, when its
status is `pending-update` — every task bearing the placeholder id is replaced by
`{ ...newTask, status: undefined }` and the collection re-sorted; locally edited
fields are not carried forward. -/
theorem C9_create_success_overwrites_local_edit (u tok tempId : String)
    (newTask : Task) (s : ManagerState)
    (hnpd : pendingDeleteRequested s.tasks tempId = false) :
    (handleAddTaskSuccess (some u) (some tok) tempId newTask s).1.tasks
      = sortByCreatedAt (s.tasks.map (fun t =>
          if t.id == tempId then newTask.setStatus none else t)) ∧
    (handleAddTaskSuccess (some u) (some tok) tempId newTask s).2 = [] := by
  constructor
  · simp [handleAddTaskSuccess, hnpd]
  · simp [handleAddTaskSuccess, hnpd]

theorem C9_create_success_overwrites_local_edit_witness :
    (handleAddTaskSuccess (some "u") (some "tok") "temp-1"
        (Task.mk "42" "A" false "u" 150 none none)
        (ManagerState.mk
          [Task.mk "temp-1" "B" false "u" 100 (some PendingStatus.pendingUpdate)
            (some (Task.mk "temp-1" "A" false "u" 100 (some PendingStatus.pendingAdd) none))]
          [] false)).1.tasks
      = sortByCreatedAt ((ManagerState.mk
          [Task.mk "temp-1" "B" false "u" 100 (some PendingStatus.pendingUpdate)
            (some (Task.mk "temp-1" "A" false "u" 100 (some PendingStatus.pendingAdd) none))]
          [] false).tasks.map (fun t =>
          if t.id == "temp-1"
          then (Task.mk "42" "A" false "u" 150 none none).setStatus none else t)) ∧
    (handleAddTaskSuccess (some "u") (some "tok") "temp-1"
        (Task.mk "42" "A" false "u" 150 none none)
        (ManagerState.mk
          [Task.mk "temp-1" "B" false "u" 100 (some PendingStatus.pendingUpdate)
            (some (Task.mk "temp-1" "A" false "u" 100 (some PendingStatus.pendingAdd) none))]
          [] false)).2 = [] :=
  C9_create_success_overwrites_local_edit "u" "tok" "temp-1"
    (Task.mk "42" "A" false "u" 150 none none)
    (ManagerState.mk
      [Task.mk "temp-1" "B" false "u" 100 (some PendingStatus.pendingUpdate)
        (some (Task.mk "temp-1" "A" false "u" 100 (some PendingStatus.pendingAdd) none))]
      [] false) rfl

/-- C10: when deleteTask marked a placeholder `pending-delete` while its create was
in flight and the create request then fails, the deferred delete resolves with no
further network action: the deferring deleteTask call produced no request and no
continuation, and the create's catch-branch rollback removes the placeholder from
the collection (the failure handler performs only the local filter; it issues no
request). -/
theorem C10_create_failure_resolves_deferred_delete (u tok tempId : String)
    (s : ManagerState) (t₀ : Task)
    (hfind : s.tasks.find? (fun t => t.id == tempId) = some t₀)
    (htemp : isTempId tempId = true)
    (hpend : t₀.status = some PendingStatus.pendingAdd) :
    (handleDeleteTaskStart (some u) (some tok) tempId false s.tasks s).2.1 = [] ∧
    (handleDeleteTaskStart (some u) (some tok) tempId false s.tasks s).2.2 = none ∧
    ∀ t ∈ (handleAddTaskFailure tempId
        (handleDeleteTaskStart (some u) (some tok) tempId false s.tasks s).1).tasks,
      t.id ≠ tempId := by
  have hcond : (isTempId tempId && t₀.status == some PendingStatus.pendingAdd) = true := by
    rw [htemp, hpend]
    rfl
  have hstart : handleDeleteTaskStart (some u) (some tok) tempId false s.tasks s
      = ({ s with tasks := s.tasks.map (fun t =>
          if t.id == tempId then t.setStatus (some PendingStatus.pendingDelete) else t) },
         [], none) := by
    simp [handleDeleteTaskStart, hfind, hcond]
  refine ⟨by rw [hstart], by rw [hstart], ?_⟩
  intro t ht
  rw [hstart] at ht
  simp only [handleAddTaskFailure] at ht
  have hmem := (List.mem_filter.mp ht).2
  exact bne_iff_ne.mp hmem

theorem C10_create_failure_resolves_deferred_delete_witness :
    (handleDeleteTaskStart (some "u") (some "tok") "temp-1" false
        (ManagerState.mk [Task.mk "temp-1" "X" false "u" 100 (some PendingStatus.pendingAdd) none]
          [] false).tasks
        (ManagerState.mk [Task.mk "temp-1" "X" false "u" 100 (some PendingStatus.pendingAdd) none]
          [] false)).2.1 = [] ∧
    (handleDeleteTaskStart (some "u") (some "tok") "temp-1" false
        (ManagerState.mk [Task.mk "temp-1" "X" false "u" 100 (some PendingStatus.pendingAdd) none]
          [] false).tasks
        (ManagerState.mk [Task.mk "temp-1" "X" false "u" 100 (some PendingStatus.pendingAdd) none]
          [] false)).2.2 = none ∧
    ∀ t ∈ (handleAddTaskFailure "temp-1"
        (handleDeleteTaskStart (some "u") (some "tok") "temp-1" false
          (ManagerState.mk
            [Task.mk "temp-1" "X" false "u" 100 (some PendingStatus.pendingAdd) none]
            [] false).tasks
          (ManagerState.mk
            [Task.mk "temp-1" "X" false "u" 100 (some PendingStatus.pendingAdd) none]
            [] false)).1).tasks,
      t.id ≠ "temp-1" :=
  C10_create_failure_resolves_deferred_delete "u" "tok" "temp-1"
    (ManagerState.mk [Task.mk "temp-1" "X" false "u" 100 (some PendingStatus.pendingAdd) none]
      [] false)
    (Task.mk "temp-1" "X" false "u" 100 (some PendingStatus.pendingAdd) none) rfl rfl rfl

end TaskApp
